import Mathlib

/-!
Verification of the FII (real-estate fund) filter/score/report pipeline
(`fii_analyzer.py`) against its specification.

The Python program is shallowly embedded: pandas string columns become
`String` fields, numeric columns become `ℚ` fields, fallible stages become
`Option`-valued functions, and `sort_values` becomes `List.insertionSort`
with the corresponding lexicographic key relation.
-/

namespace FiiAnalyzer

/-! ### String-to-number conversion (`clean_and_convert_data` internals)

Each pandas `.str.replace(old, new)` call is a literal, all-occurrence
replacement; the replacements used are single characters, so they are
`List.filter` / `List.map` over the string character data.
-/

/-- `s.str.replace START_PCT, ''` with the percent sign: drops every percent char. -/
def stripPercent (cs : List Char) : List Char := cs.filter (fun c => c ≠ '%')

/-- `.replace(DOT, '')`: drops every dot character. -/
def stripDots (cs : List Char) : List Char := cs.filter (fun c => c ≠ '.')

/-- `.replace(COMMA, DOT)`: maps every comma to a dot. -/
def commaToDot (cs : List Char) : List Char :=
  cs.map (fun c => if c = ',' then '.' else c)

/-- Value of a list of decimal digit characters, most significant first. -/
def digitsToNat (cs : List Char) : ℕ :=
  cs.foldl (fun n c => 10 * n + (c.toNat - 48)) 0

/-- Models Python `float(...)` on the unsigned decimal strings that occur in
this pipeline: an optional run of digits, optionally followed by a single dot
and a run of digits, with at least one digit overall; anything else raises
`ValueError`, modelled as `none`. -/
def pyFloat (cs : List Char) : Option ℚ :=
  let intPart := cs.takeWhile Char.isDigit
  let rest := cs.dropWhile Char.isDigit
  match rest with
  | [] => if intPart.isEmpty then none else some (digitsToNat intPart : ℚ)
  | c :: frac =>
      if c = '.' ∧ frac.all Char.isDigit ∧ (intPart ≠ [] ∨ frac ≠ []) then
        some ((digitsToNat intPart : ℚ) + (digitsToNat frac : ℚ) / 10 ^ frac.length)
      else none

/-- `df[DY].str.replace(PCT,'').str.replace(DOT,'').str.replace(COMMA,DOT).astype(float) / 100` -/
def convert_dividend_yield (s : String) : Option ℚ :=
  (pyFloat (commaToDot (stripDots (stripPercent s.data)))).map (fun q => q / 100)

/-- `df[PVP].str.replace(COMMA, DOT).astype(float)` -/
def convert_pvp (s : String) : Option ℚ :=
  pyFloat (commaToDot s.data)

/-- `float(x.replace(DOT, ''))` for the `Valor de Mercado` column. -/
def convert_valor_mercado (s : String) : Option ℚ :=
  pyFloat (stripDots s.data)

/-- `float(x.replace(DOT, ''))` for the `Liquidez` column. -/
def convert_liquidez (s : String) : Option ℚ :=
  pyFloat (stripDots s.data)

/-- `df[VAC].str.replace(PCT,'').str.replace(COMMA,DOT).astype(float) / 100`
(note: unlike `Dividend Yield`, no dot-stripping step). -/
def convert_vacancia (s : String) : Option ℚ :=
  (pyFloat (commaToDot (stripPercent s.data))).map (fun q => q / 100)

/-! ### Records -/

/-- A raw scraped row: every cell is still a locale-formatted string. -/
structure RawRecord where
  papel : String
  segmento : String
  dividendYield : String
  pvp : String
  valorDeMercado : String
  liquidez : String
  qtdImoveis : String
  vacanciaMedia : String

/-- A row after `clean_and_convert_data`: the five converted columns are
numeric, the others stay strings (`Qtd Imoveis` is never converted). -/
structure Record where
  papel : String
  segmento : String
  dividendYield : ℚ
  pvp : ℚ
  valorDeMercado : ℚ
  liquidez : ℚ
  qtdImoveis : String
  vacanciaMedia : ℚ

/-- The view of a row taken by `calculate_score(row)`: name-indexed access
`row[col]` to the five numeric columns, each of which may be absent
(a missing column raises, modelled by `none`). -/
structure RowOpt where
  dividendYield : Option ℚ
  pvp : Option ℚ
  liquidez : Option ℚ
  valorDeMercado : Option ℚ
  vacanciaMedia : Option ℚ

/-- A record carrying its computed score column `Nota`. -/
structure Scored where
  papel : String
  segmento : String
  dividendYield : ℚ
  pvp : ℚ
  valorDeMercado : ℚ
  liquidez : ℚ
  qtdImoveis : String
  vacanciaMedia : ℚ
  nota : ℕ

/-- Row access used by `calculate_score` on a cleaned record: all five
columns are present. -/
def Record.toRowOpt (r : Record) : RowOpt :=
  ⟨some r.dividendYield, some r.pvp, some r.liquidez,
   some r.valorDeMercado, some r.vacanciaMedia⟩

/-! ### `clean_and_convert_data` -/

/-- One row of `clean_and_convert_data`: converts the five numeric columns,
failing if any cell fails to parse. -/
def clean_row (r : RawRecord) : Option Record :=
  (convert_dividend_yield r.dividendYield).bind fun dy =>
  (convert_pvp r.pvp).bind fun pvp =>
  (convert_valor_mercado r.valorDeMercado).bind fun vm =>
  (convert_liquidez r.liquidez).bind fun liq =>
  (convert_vacancia r.vacanciaMedia).map fun vac =>
  { papel := r.papel, segmento := r.segmento, dividendYield := dy, pvp := pvp,
    valorDeMercado := vm, liquidez := liq, qtdImoveis := r.qtdImoveis,
    vacanciaMedia := vac }

/-- `clean_and_convert_data(df)`: converts every row; any unparseable cell
raises, is caught, and the whole stage returns `None`. -/
def clean_and_convert_data : List RawRecord → Option (List Record)
  | [] => some []
  | r :: rest =>
      (clean_row r).bind fun x =>
      (clean_and_convert_data rest).map fun xs => x :: xs

/-! ### `apply_filters` -/

/-- The six conjoined boolean-mask conditions of `apply_filters`. -/
def passes_filters (r : Record) : Bool :=
  decide (r.dividendYield > 0.7) && decide (r.dividendYield < 0.25) &&
  decide (r.pvp > 0.5) && decide (r.pvp < 1.1) &&
  decide (r.liquidez > 1000000) && decide (r.valorDeMercado > 1000000000)

/-- `apply_filters(df)`: the boolean-mask selection; on the cleaned, typed
records the `try` body cannot raise, so the result is always `some`. -/
def apply_filters (l : List Record) : Option (List Record) :=
  some (l.filter passes_filters)

/-! ### `calculate_score` -/

/-- Dividend Yield block: `+2` if `>= 0.14`, elif `+1` if `>= 0.12`. -/
def dy_points (x : ℚ) : ℕ := if x ≥ 0.14 then 2 else if x ≥ 0.12 then 1 else 0

/-- P/VP block: `+2` if `<= 0.80`, elif `+1` if `<= 0.85`. -/
def pvp_points (x : ℚ) : ℕ := if x ≤ 0.80 then 2 else if x ≤ 0.85 then 1 else 0

/-- Liquidez block: `+2` if `>= 5000000`, elif `+1` if `>= 2000000`. -/
def liq_points (x : ℚ) : ℕ :=
  if x ≥ 5000000 then 2 else if x ≥ 2000000 then 1 else 0

/-- Valor de Mercado block: `+2` if `>= 2000000000`, elif `+1` if `>= 1500000000`. -/
def vm_points (x : ℚ) : ℕ :=
  if x ≥ 2000000000 then 2 else if x ≥ 1500000000 then 1 else 0

/-- Vacancia Media block: `+2` if `<= 0.05`, elif `+1` if `<= 0.10`. -/
def vac_points (x : ℚ) : ℕ := if x ≤ 0.05 then 2 else if x ≤ 0.10 then 1 else 0

/-- The `try` body of `calculate_score`: reads the five columns in source
order (a missing column raises, aborting the whole body), accumulates the
five if/elif contributions, and returns `min(score, 10)`. -/
def score_try (row : RowOpt) : Option ℕ :=
  row.dividendYield.bind fun dy =>
  row.pvp.bind fun pvp =>
  row.liquidez.bind fun liq =>
  row.valorDeMercado.bind fun vm =>
  row.vacanciaMedia.map fun vac =>
  min (dy_points dy + pvp_points pvp + liq_points liq + vm_points vm +
       vac_points vac) 10

/-- `calculate_score(row)`: the `except` clause prints a diagnostic and
returns `0`. -/
def calculate_score (row : RowOpt) : ℕ := (score_try row).getD 0

/-- `filtered_df.apply(calculate_score, axis=1)` over name-indexed rows:
the per-row scoring stage; it always yields a score column, never a
failure signal. -/
def score_rows (l : List RowOpt) : List (RowOpt × ℕ) :=
  l.map (fun r => (r, calculate_score r))

/-- `filtered_df[NOTA] = filtered_df.apply(calculate_score, axis=1)` on the
cleaned, typed records of the pipeline. -/
def score_record (r : Record) : Scored :=
  { papel := r.papel, segmento := r.segmento, dividendYield := r.dividendYield,
    pvp := r.pvp, valorDeMercado := r.valorDeMercado, liquidez := r.liquidez,
    qtdImoveis := r.qtdImoveis, vacanciaMedia := r.vacanciaMedia,
    nota := calculate_score r.toRowOpt }

/-- The scoring stage applied to the whole filtered set. -/
def score_stage (l : List Record) : List Scored := l.map score_record

/-! ### Sorting and grouping -/

/-- `sort_values(by=[NOTA, DY], ascending=[False, False])` key order:
`a` may come before `b`. -/
def nota_dy_ge (a b : Scored) : Prop :=
  b.nota < a.nota ∨ (a.nota = b.nota ∧ b.dividendYield ≤ a.dividendYield)

instance : DecidableRel nota_dy_ge := fun a b =>
  inferInstanceAs (Decidable
    (b.nota < a.nota ∨ (a.nota = b.nota ∧ b.dividendYield ≤ a.dividendYield)))

/-- `sort_values([SEG, NOTA, DY], ascending=[True, False, False])` key order. -/
def seg_nota_dy_le (a b : Scored) : Prop :=
  a.segmento < b.segmento ∨
    (a.segmento = b.segmento ∧
      (b.nota < a.nota ∨ (a.nota = b.nota ∧ b.dividendYield ≤ a.dividendYield)))

instance : DecidableRel seg_nota_dy_le := fun a b =>
  inferInstanceAs (Decidable
    (a.segmento < b.segmento ∨
      (a.segmento = b.segmento ∧
        (b.nota < a.nota ∨
          (a.nota = b.nota ∧ b.dividendYield ≤ a.dividendYield)))))

/-- `sort_values([SEG, NOTA], ascending=[True, False])` key order. -/
def seg_nota_le (a b : Scored) : Prop :=
  a.segmento < b.segmento ∨ (a.segmento = b.segmento ∧ b.nota ≤ a.nota)

instance : DecidableRel seg_nota_le := fun a b =>
  inferInstanceAs (Decidable
    (a.segmento < b.segmento ∨ (a.segmento = b.segmento ∧ b.nota ≤ a.nota)))

/-- `final_df.sort_values(by=[NOTA, DY], ascending=[False, False])`. -/
def sort_by_nota_dy (l : List Scored) : List Scored :=
  List.insertionSort nota_dy_ge l

/-- `groupby(SEG).head(n)`: walks the rows in order, keeping a row while
fewer than `n` rows of its segment have been seen. `prev` is the list of
rows already walked. -/
def groupby_head_go (n : ℕ) (prev : List Scored) : List Scored → List Scored
  | [] => []
  | r :: rest =>
      if ((prev.filter (fun x => x.segmento == r.segmento)).length < n) then
        r :: groupby_head_go n (prev ++ [r]) rest
      else
        groupby_head_go n (prev ++ [r]) rest

/-- `groupby(SEG).head(n)` applied to a row list. -/
def groupby_head (n : ℕ) (l : List Scored) : List Scored :=
  groupby_head_go n [] l

/-- `get_top_by_segment(df, n)`: empty input short-circuits to an empty
frame; otherwise sort by (segment asc, score desc, yield desc), take the
first `n` of each segment, and re-sort by (segment asc, score desc). -/
def get_top_by_segment (l : List Scored) (n : ℕ) : List Scored :=
  if l.isEmpty then []
  else
    List.insertionSort seg_nota_le
      (groupby_head n (List.insertionSort seg_nota_dy_le l))

/-! ### `verificar_arquivo_existente` and `main` -/

/-- `verificar_arquivo_existente(nome_arquivo)`: the overwrite prompt is
commented out, so the function warns (when the file exists) and returns
`True` unconditionally. First component: the returned boolean; second:
the printed warning, if any. `file_exists` models `os.path.exists`. -/
def verificar_arquivo_existente (file_exists : Bool) (nome_arquivo : String) :
    Bool × Option String :=
  if file_exists then
    (true, some ("AVISO: O arquivo " ++ nome_arquivo ++ " ja existe no diretorio."))
  else
    (true, none)

/-- What a run of `main` produces: `written` is the pair of sheets of the
output file (`Todos Fundos`, `Top por Segmento`), or `none` when no file is
written; `diagnostic` is the failure message printed, if any. -/
structure MainResult where
  written : Option (List Scored × List Scored)
  diagnostic : Option String

/-- `main()`, with the two external effects as parameters: whether the
output file already exists, and the result of `scrape_fundamentus_fiis()`
(`none` models a scrape that returned `None`). -/
def main_model (file_exists : Bool) (fetched : Option (List RawRecord)) :
    MainResult :=
  if (verificar_arquivo_existente file_exists
        ("fundos_imobiliarios_filtrados.xlsx")).1 = false then
    ⟨none, some ("Operacao cancelada pelo usuario.")⟩
  else
    match fetched with
    | none => ⟨none, some ("Nao foi possivel obter os dados do site.")⟩
    | some df =>
      match clean_and_convert_data df with
      | none => ⟨none, some ("Erro ao processar os dados.")⟩
      | some df2 =>
        match apply_filters df2 with
        | none => ⟨none, some ("Erro ao filtrar os dados.")⟩
        | some filtered =>
          if filtered.isEmpty then
            ⟨none, some ("Nenhum fundo atende aos criterios de filtro especificados.")⟩
          else
            let final := sort_by_nota_dy (score_stage filtered)
            ⟨some (final, get_top_by_segment final 5), none⟩

/-! ### Helper lemmas: filtering -/

lemma passes_filters_false (r : Record) : passes_filters r = false := by
  have h : ¬ (r.dividendYield < 0.25) ∨ ¬ (0.7 < r.dividendYield) := by
    by_contra hc
    push_neg at hc
    linarith [hc.1, hc.2]
  unfold passes_filters
  rcases h with h | h <;> simp [h]

lemma passes_filters_iff (r : Record) :
    passes_filters r = true ↔
      (0.7 < r.dividendYield ∧ r.dividendYield < 0.25 ∧ 0.5 < r.pvp ∧
       r.pvp < 1.1 ∧ 1000000 < r.liquidez ∧ 1000000000 < r.valorDeMercado) := by
  unfold passes_filters
  simp [and_assoc]

lemma filter_passes_nil (l : List Record) : l.filter passes_filters = [] := by
  rw [List.filter_eq_nil_iff]
  intro a _
  simp [passes_filters_false a]

/-! ### Helper lemmas: scoring -/

lemma dy_points_le_two (x : ℚ) : dy_points x ≤ 2 := by
  unfold dy_points; split_ifs <;> omega

lemma pvp_points_le_two (x : ℚ) : pvp_points x ≤ 2 := by
  unfold pvp_points; split_ifs <;> omega

lemma liq_points_le_two (x : ℚ) : liq_points x ≤ 2 := by
  unfold liq_points; split_ifs <;> omega

lemma vm_points_le_two (x : ℚ) : vm_points x ≤ 2 := by
  unfold vm_points; split_ifs <;> omega

lemma vac_points_le_two (x : ℚ) : vac_points x ≤ 2 := by
  unfold vac_points; split_ifs <;> omega

lemma points_sum_le_ten (dy pvp liq vm vac : ℚ) :
    dy_points dy + pvp_points pvp + liq_points liq + vm_points vm +
      vac_points vac ≤ 10 := by
  have h1 := dy_points_le_two dy
  have h2 := pvp_points_le_two pvp
  have h3 := liq_points_le_two liq
  have h4 := vm_points_le_two vm
  have h5 := vac_points_le_two vac
  omega

lemma calculate_score_eq (dy pvp liq vm vac : ℚ) :
    calculate_score ⟨some dy, some pvp, some liq, some vm, some vac⟩ =
      dy_points dy + pvp_points pvp + liq_points liq + vm_points vm +
        vac_points vac := by
  show (score_try ⟨some dy, some pvp, some liq, some vm, some vac⟩).getD 0 = _
  show (some (min (dy_points dy + pvp_points pvp + liq_points liq +
      vm_points vm + vac_points vac) 10)).getD 0 = _
  rw [Option.getD_some]
  exact min_eq_left (points_sum_le_ten dy pvp liq vm vac)

lemma calculate_score_le_ten (dy pvp liq vm vac : ℚ) :
    calculate_score ⟨some dy, some pvp, some liq, some vm, some vac⟩ ≤ 10 := by
  rw [calculate_score_eq]
  exact points_sum_le_ten dy pvp liq vm vac

lemma dy_points_mono {x y : ℚ} (h : x ≤ y) : dy_points x ≤ dy_points y := by
  unfold dy_points
  split_ifs <;> first | omega | (exfalso; linarith)

lemma pvp_points_mono {x y : ℚ} (h : y ≤ x) : pvp_points x ≤ pvp_points y := by
  unfold pvp_points
  split_ifs <;> first | omega | (exfalso; linarith)

lemma liq_points_mono {x y : ℚ} (h : x ≤ y) : liq_points x ≤ liq_points y := by
  unfold liq_points
  split_ifs <;> first | omega | (exfalso; linarith)

lemma vm_points_mono {x y : ℚ} (h : x ≤ y) : vm_points x ≤ vm_points y := by
  unfold vm_points
  split_ifs <;> first | omega | (exfalso; linarith)

lemma vac_points_mono {x y : ℚ} (h : y ≤ x) : vac_points x ≤ vac_points y := by
  unfold vac_points
  split_ifs <;> first | omega | (exfalso; linarith)

/-! ### Claim theorems: C1, C4, C5 -/

/-- C1: `apply_filters` selects exactly the rows satisfying the six conjoined
bounds, and since the two Dividend Yield bounds (`> 0.7` and `< 0.25`) are
jointly unsatisfiable, it returns the empty set on every input. -/
theorem apply_filters_conjunction_and_always_empty (l : List Record) :
    (∀ r : Record, r ∈ l.filter passes_filters ↔
        r ∈ l ∧ (0.7 < r.dividendYield ∧ r.dividendYield < 0.25 ∧
          0.5 < r.pvp ∧ r.pvp < 1.1 ∧ 1000000 < r.liquidez ∧
          1000000000 < r.valorDeMercado)) ∧
    apply_filters l = some [] := by
  constructor
  · intro r
    rw [List.mem_filter, passes_filters_iff]
  · unfold apply_filters
    rw [filter_passes_nil]

/-- C4: on a row with all five numeric columns present, `calculate_score` is
the sum of five independent threshold contributions, each at most 2, the
total is at most 10, and the `min(score, 10)` cap never changes the value. -/
theorem calculate_score_is_capped_sum (dy pvp liq vm vac : ℚ) :
    calculate_score ⟨some dy, some pvp, some liq, some vm, some vac⟩ =
        dy_points dy + pvp_points pvp + liq_points liq + vm_points vm +
          vac_points vac ∧
    dy_points dy ≤ 2 ∧ pvp_points pvp ≤ 2 ∧ liq_points liq ≤ 2 ∧
    vm_points vm ≤ 2 ∧ vac_points vac ≤ 2 ∧
    calculate_score ⟨some dy, some pvp, some liq, some vm, some vac⟩ ≤ 10 ∧
    min (dy_points dy + pvp_points pvp + liq_points liq + vm_points vm +
        vac_points vac) 10 =
      dy_points dy + pvp_points pvp + liq_points liq + vm_points vm +
        vac_points vac :=
  ⟨calculate_score_eq dy pvp liq vm vac, dy_points_le_two dy,
   pvp_points_le_two pvp, liq_points_le_two liq, vm_points_le_two vm,
   vac_points_le_two vac, calculate_score_le_ten dy pvp liq vm vac,
   min_eq_left (points_sum_le_ten dy pvp liq vm vac)⟩

/-- C5: `calculate_score` is monotone in each metric in its stated direction
(increasing Dividend Yield, Liquidez or Valor de Mercado, or decreasing
P/VP or Vacancia Media, never decreases the score), and the score never
exceeds 10. -/
theorem calculate_score_monotone (dy dy' pvp pvp' liq liq' vm vm' vac vac' : ℚ) :
    (dy ≤ dy' →
      calculate_score ⟨some dy, some pvp, some liq, some vm, some vac⟩ ≤
      calculate_score ⟨some dy', some pvp, some liq, some vm, some vac⟩) ∧
    (pvp' ≤ pvp →
      calculate_score ⟨some dy, some pvp, some liq, some vm, some vac⟩ ≤
      calculate_score ⟨some dy, some pvp', some liq, some vm, some vac⟩) ∧
    (liq ≤ liq' →
      calculate_score ⟨some dy, some pvp, some liq, some vm, some vac⟩ ≤
      calculate_score ⟨some dy, some pvp, some liq', some vm, some vac⟩) ∧
    (vm ≤ vm' →
      calculate_score ⟨some dy, some pvp, some liq, some vm, some vac⟩ ≤
      calculate_score ⟨some dy, some pvp, some liq, some vm', some vac⟩) ∧
    (vac' ≤ vac →
      calculate_score ⟨some dy, some pvp, some liq, some vm, some vac⟩ ≤
      calculate_score ⟨some dy, some pvp, some liq, some vm, some vac'⟩) ∧
    calculate_score ⟨some dy, some pvp, some liq, some vm, some vac⟩ ≤ 10 := by
  refine ⟨?_, ?_, ?_, ?_, ?_, calculate_score_le_ten dy pvp liq vm vac⟩ <;>
    intro h <;> rw [calculate_score_eq, calculate_score_eq]
  · exact Nat.add_le_add_right (Nat.add_le_add_right (Nat.add_le_add_right
      (Nat.add_le_add_right (dy_points_mono h) _) _) _) _
  · exact Nat.add_le_add_right (Nat.add_le_add_right (Nat.add_le_add_right
      (Nat.add_le_add_left (pvp_points_mono h) _) _) _) _
  · exact Nat.add_le_add_right (Nat.add_le_add_right
      (Nat.add_le_add_left (liq_points_mono h) _) _) _
  · exact Nat.add_le_add_right (Nat.add_le_add_left (vm_points_mono h) _) _
  · exact Nat.add_le_add_left (vac_points_mono h) _

/-- Witness for C5: concrete instantiation of each monotonicity hypothesis. -/
theorem calculate_score_monotone_witness :
    (calculate_score ⟨some 0, some 1, some 0, some 0, some 1⟩ ≤
      calculate_score ⟨some 1, some 1, some 0, some 0, some 1⟩) ∧
    (calculate_score ⟨some 0, some 1, some 0, some 0, some 1⟩ ≤
      calculate_score ⟨some 0, some 0, some 0, some 0, some 1⟩) ∧
    (calculate_score ⟨some 0, some 1, some 0, some 0, some 1⟩ ≤
      calculate_score ⟨some 0, some 1, some 1, some 0, some 1⟩) ∧
    (calculate_score ⟨some 0, some 1, some 0, some 0, some 1⟩ ≤
      calculate_score ⟨some 0, some 1, some 0, some 1, some 1⟩) ∧
    (calculate_score ⟨some 0, some 1, some 0, some 0, some 1⟩ ≤
      calculate_score ⟨some 0, some 1, some 0, some 0, some 0⟩) ∧
    calculate_score ⟨some 0, some 1, some 0, some 0, some 1⟩ ≤ 10 := by
  obtain ⟨h1, h2, h3, h4, h5, h6⟩ :=
    calculate_score_monotone 0 1 1 0 0 1 0 1 1 0
  exact ⟨h1 (by norm_num), h2 (by norm_num), h3 (by norm_num),
         h4 (by norm_num), h5 (by norm_num), h6⟩

/-! ### Helper lemmas: sorting and grouping -/

instance : IsTotal Scored nota_dy_ge :=
  ⟨fun a b => by
    unfold nota_dy_ge
    rcases Nat.lt_trichotomy a.nota b.nota with h | h | h
    · exact Or.inr (Or.inl h)
    · rcases le_total b.dividendYield a.dividendYield with h' | h'
      · exact Or.inl (Or.inr ⟨h, h'⟩)
      · exact Or.inr (Or.inr ⟨h.symm, h'⟩)
    · exact Or.inl (Or.inl h)⟩

instance : IsTrans Scored nota_dy_ge :=
  ⟨by
    intro a b c hab hbc
    unfold nota_dy_ge at hab hbc ⊢
    rcases hab with h1 | ⟨h1, h1'⟩ <;> rcases hbc with h2 | ⟨h2, h2'⟩
    · exact Or.inl (by omega)
    · exact Or.inl (by omega)
    · exact Or.inl (by omega)
    · exact Or.inr ⟨by omega, le_trans h2' h1'⟩⟩

lemma groupby_head_go_count (n : ℕ) (s : String) :
    ∀ (l prev : List Scored),
      ((groupby_head_go n prev l).filter (fun x => x.segmento == s)).length ≤
        n - (prev.filter (fun x => x.segmento == s)).length
  | [], prev => by simp [groupby_head_go]
  | r :: rest, prev => by
    have IH := groupby_head_go_count n s rest (prev ++ [r])
    have hlen : ((prev ++ [r]).filter (fun x => x.segmento == s)).length =
        (prev.filter (fun x => x.segmento == s)).length +
          (([r] : List Scored).filter (fun x => x.segmento == s)).length := by
      rw [List.filter_append, List.length_append]
    simp only [groupby_head_go]
    by_cases hr : r.segmento == s
    · have hseg : r.segmento = s := by simpa using hr
      have h1 : (([r] : List Scored).filter
          (fun x => x.segmento == s)).length = 1 := by simp [hr]
      rw [hseg]
      split_ifs with hc
      · rw [List.filter_cons_of_pos (by simpa using hseg)]
        simp only [List.length_cons]
        omega
      · omega
    · have h1 : (([r] : List Scored).filter
          (fun x => x.segmento == s)).length = 0 := by simp [hr]
      split_ifs with hc
      · rw [List.filter_cons_of_neg (by simpa using hr)]
        omega
      · omega

lemma groupby_head_count (n : ℕ) (s : String) (l : List Scored) :
    ((groupby_head n l).filter (fun x => x.segmento == s)).length ≤ n := by
  have h := groupby_head_go_count n s l []
  simpa [groupby_head] using h

lemma groupby_head_go_subset (n : ℕ) :
    ∀ (l prev : List Scored) (r : Scored),
      r ∈ groupby_head_go n prev l → r ∈ l
  | [], _, r => by simp [groupby_head_go]
  | x :: rest, prev, r => by
    simp only [groupby_head_go]
    split_ifs with hc
    · intro h
      rcases List.mem_cons.mp h with h | h
      · exact h ▸ List.mem_cons_self x rest
      · exact List.mem_cons_of_mem x
          (groupby_head_go_subset n rest (prev ++ [x]) r h)
    · intro h
      exact List.mem_cons_of_mem x
        (groupby_head_go_subset n rest (prev ++ [x]) r h)

lemma get_top_by_segment_count (l : List Scored) (n : ℕ) (s : String) :
    ((get_top_by_segment l n).filter (fun x => x.segmento == s)).length ≤ n := by
  unfold get_top_by_segment
  split_ifs with he
  · simp
  · have hcount : ((List.insertionSort seg_nota_le
          (groupby_head n (List.insertionSort seg_nota_dy_le l))).filter
            (fun x => x.segmento == s)).length =
        ((groupby_head n (List.insertionSort seg_nota_dy_le l)).filter
            (fun x => x.segmento == s)).length := by
      rw [← List.countP_eq_length_filter, ← List.countP_eq_length_filter]
      exact (List.perm_insertionSort seg_nota_le _).countP_eq _
    rw [hcount]
    exact groupby_head_count n s _

lemma get_top_by_segment_subset (l : List Scored) (n : ℕ) (r : Scored)
    (h : r ∈ get_top_by_segment l n) : r ∈ l := by
  unfold get_top_by_segment at h
  split_ifs at h with he
  · simp at h
  · have h1 : r ∈ groupby_head n (List.insertionSort seg_nota_dy_le l) :=
      (List.perm_insertionSort seg_nota_le _).mem_iff.mp h
    have h2 : r ∈ List.insertionSort seg_nota_dy_le l :=
      groupby_head_go_subset n _ [] r h1
    exact (List.perm_insertionSort seg_nota_dy_le l).mem_iff.mp h2

/-! ### Claim theorems: C3, C6, C7 -/

/-- A scorer input row lacking the `Dividend Yield` column. -/
def row_missing_dy : RowOpt :=
  ⟨none, some 0.8, some 6000000, some 3000000000, some 0.02⟩

/-- C3 counterexample: on a record set lacking a column the scorer reads,
`calculate_score` returns the substitute value `0` (not a failure signal),
and the scoring stage still produces a scored record set, so downstream
ranking and report writing are not short-circuited. -/
theorem scoring_missing_column_still_produces_output :
    calculate_score row_missing_dy = 0 ∧
    score_rows [row_missing_dy] = [(row_missing_dy, 0)] :=
  ⟨rfl, rfl⟩

/-- C3 (amended): when scoring encounters a missing column, the failure is
caught per record and `calculate_score` returns `0` for that record; the
scoring stage continues and yields a scored record set (no short-circuit). -/
theorem scoring_missing_column_scores_zero (r : RowOpt)
    (h : r.dividendYield = none ∨ r.pvp = none ∨ r.liquidez = none ∨
         r.valorDeMercado = none ∨ r.vacanciaMedia = none) :
    calculate_score r = 0 ∧ score_rows [r] = [(r, 0)] := by
  have hs : score_try r = none := by
    rcases r with ⟨d, p, l, v, c⟩
    rcases d with _ | d <;> rcases p with _ | p <;> rcases l with _ | l <;>
      rcases v with _ | v <;> rcases c with _ | c <;> simp_all [score_try]
  constructor
  · unfold calculate_score
    rw [hs]
    rfl
  · unfold score_rows
    simp [calculate_score, hs]

/-- Witness for C3 (amended). -/
theorem scoring_missing_column_scores_zero_witness :
    calculate_score ⟨some 1, none, some 1, some 1, some 1⟩ = 0 ∧
    score_rows [(⟨some 1, none, some 1, some 1, some 1⟩ : RowOpt)] =
      [((⟨some 1, none, some 1, some 1, some 1⟩ : RowOpt), 0)] :=
  scoring_missing_column_scores_zero ⟨some 1, none, some 1, some 1, some 1⟩
    (Or.inr (Or.inl rfl))

/-- C6: for a non-empty record set, the per-category top-N view contains at
most `n` records of each category, and every returned record comes from the
input set (so its category is its own group key). -/
theorem get_top_by_segment_bounded_per_category (l : List Scored) (n : ℕ)
    (h : l ≠ []) :
    (∀ s : String,
      ((get_top_by_segment l n).filter (fun x => x.segmento == s)).length ≤ n) ∧
    ∀ r ∈ get_top_by_segment l n, r ∈ l :=
  ⟨fun s => get_top_by_segment_count l n s,
   fun r hr => get_top_by_segment_subset l n r hr⟩

/-- One concrete scored record, used to witness C6. -/
def sample_scored : Scored :=
  ⟨("ABCP11"), ("Shoppings"), 0.1, 1, 1, 1, ("1"), 0.05, 5⟩

/-- Witness for C6 at a concrete non-empty record set. -/
theorem get_top_by_segment_bounded_witness :
    ((get_top_by_segment [sample_scored] 5).filter
      (fun x => x.segmento == ("Shoppings"))).length ≤ 5 :=
  (get_top_by_segment_bounded_per_category [sample_scored] 5 (by simp)).1
    ("Shoppings")

/-- C7: the full report sort (`score` descending, then yield descending)
yields a sequence in which each adjacent pair has either strictly greater
score first, or equal scores and first yield at least the second yield. -/
theorem full_report_sorted_by_score_then_yield (l : List Scored) :
    (sort_by_nota_dy l).Chain'
      (fun a b => b.nota < a.nota ∨
        (a.nota = b.nota ∧ b.dividendYield ≤ a.dividendYield)) :=
  List.Pairwise.chain' (List.sorted_insertionSort nota_dy_ge l)

/-! ### Helper lemmas: string normalization -/

lemma digit_ne_pct {c : Char} (h : c.isDigit = true) : c ≠ '%' := by
  rintro rfl
  exact absurd h (by decide)

lemma digit_ne_comma {c : Char} (h : c.isDigit = true) : c ≠ ',' := by
  rintro rfl
  exact absurd h (by decide)

lemma digit_ne_dot {c : Char} (h : c.isDigit = true) : c ≠ '.' := by
  rintro rfl
  exact absurd h (by decide)

lemma takeWhile_append_all (p : Char → Bool) :
    ∀ (xs ys : List Char), (∀ x ∈ xs, p x = true) →
      (xs ++ ys).takeWhile p = xs ++ ys.takeWhile p
  | [], _, _ => by simp
  | x :: xs, ys, h => by
    have hx : p x = true := h x (List.mem_cons_self x xs)
    have hrec := takeWhile_append_all p xs ys
      (fun a ha => h a (List.mem_cons_of_mem x ha))
    simp [List.takeWhile_cons, hx, hrec]

lemma dropWhile_append_all (p : Char → Bool) :
    ∀ (xs ys : List Char), (∀ x ∈ xs, p x = true) →
      (xs ++ ys).dropWhile p = ys.dropWhile p
  | [], _, _ => by simp
  | x :: xs, ys, h => by
    have hx : p x = true := h x (List.mem_cons_self x xs)
    have hrec := dropWhile_append_all p xs ys
      (fun a ha => h a (List.mem_cons_of_mem x ha))
    simp [List.dropWhile_cons, hx, hrec]

lemma dropWhile_append_of_ne_nil (p : Char → Bool) :
    ∀ (xs ys : List Char), xs.dropWhile p ≠ [] →
      (xs ++ ys).dropWhile p = xs.dropWhile p ++ ys
  | [], _, h => absurd rfl h
  | x :: xs, ys, h => by
    by_cases hx : p x = true
    · have h' : xs.dropWhile p ≠ [] := by
        simpa [List.dropWhile_cons, hx] using h
      simp [List.dropWhile_cons, hx, dropWhile_append_of_ne_nil p xs ys h']
    · simp [List.dropWhile_cons, hx]

lemma dropWhile_isDigit_of_dot_mem :
    ∀ (a : List Char), (∀ c ∈ a, c.isDigit = true ∨ c = '.') → '.' ∈ a →
      ∃ t, a.dropWhile Char.isDigit = '.' :: t
  | [], _, hm => absurd hm (List.not_mem_nil _)
  | c :: a, ha, hm => by
    by_cases hc : c = '.'
    · subst hc
      exact ⟨a, by simp [List.dropWhile_cons]⟩
    · have hd : c.isDigit = true := (ha c (List.mem_cons_self c a)).resolve_right hc
      have hm' : '.' ∈ a := by
        rcases List.mem_cons.mp hm with h | h
        · exact absurd h.symm hc
        · exact h
      obtain ⟨t, ht⟩ := dropWhile_isDigit_of_dot_mem a
        (fun x hx => ha x (List.mem_cons_of_mem c hx)) hm'
      exact ⟨t, by simp [List.dropWhile_cons, hd, ht]⟩

lemma pyFloat_digits (d : List Char) (h : ∀ c ∈ d, c.isDigit = true)
    (hne : d ≠ []) : pyFloat d = some (digitsToNat d : ℚ) := by
  have h1 : d.takeWhile Char.isDigit = d := by
    have := takeWhile_append_all Char.isDigit d [] h
    simpa using this
  have h2 : d.dropWhile Char.isDigit = [] := by
    have := dropWhile_append_all Char.isDigit d [] h
    simpa using this
  unfold pyFloat
  rw [h1, h2]
  simp [List.isEmpty_iff, hne]

lemma pyFloat_int_frac (d1 d2 : List Char)
    (h1 : ∀ c ∈ d1, c.isDigit = true) (h2 : ∀ c ∈ d2, c.isDigit = true)
    (hne : d1 ≠ []) :
    pyFloat (d1 ++ '.' :: d2) =
      some ((digitsToNat d1 : ℚ) + (digitsToNat d2 : ℚ) / 10 ^ d2.length) := by
  have ht : (d1 ++ '.' :: d2).takeWhile Char.isDigit = d1 := by
    rw [takeWhile_append_all Char.isDigit d1 ('.' :: d2) h1]
    simp [List.takeWhile_cons]
  have hd : (d1 ++ '.' :: d2).dropWhile Char.isDigit = '.' :: d2 := by
    rw [dropWhile_append_all Char.isDigit d1 ('.' :: d2) h1]
    simp [List.dropWhile_cons]
  have hall : d2.all Char.isDigit = true := List.all_eq_true.mpr h2
  unfold pyFloat
  rw [ht, hd]
  show (if '.' = '.' ∧ d2.all Char.isDigit = true ∧ (d1 ≠ [] ∨ d2 ≠ []) then
      some ((digitsToNat d1 : ℚ) + (digitsToNat d2 : ℚ) / 10 ^ d2.length)
    else none) = _
  rw [if_pos ⟨rfl, hall, Or.inl hne⟩]

lemma pyFloat_extra_dot (a b : List Char)
    (ha : ∀ c ∈ a, c.isDigit = true ∨ c = '.') (hdot : '.' ∈ a) :
    pyFloat (a ++ '.' :: b) = none := by
  obtain ⟨t, ht⟩ := dropWhile_isDigit_of_dot_mem a ha hdot
  have hne : a.dropWhile Char.isDigit ≠ [] := by
    rw [ht]
    exact List.cons_ne_nil _ _
  have hd : (a ++ '.' :: b).dropWhile Char.isDigit =
      '.' :: (t ++ '.' :: b) := by
    rw [dropWhile_append_of_ne_nil Char.isDigit a ('.' :: b) hne, ht]
    rfl
  have hfrac : ¬ ((t ++ '.' :: b).all Char.isDigit = true) := by
    intro hall
    have := List.all_eq_true.mp hall '.' (by simp)
    exact absurd this (by decide)
  unfold pyFloat
  rw [hd]
  show (if '.' = '.' ∧ (t ++ '.' :: b).all Char.isDigit = true ∧
      ((a ++ '.' :: b).takeWhile Char.isDigit ≠ [] ∨ t ++ '.' :: b ≠ []) then
      some ((digitsToNat ((a ++ '.' :: b).takeWhile Char.isDigit) : ℚ) +
        (digitsToNat (t ++ '.' :: b) : ℚ) / 10 ^ (t ++ '.' :: b).length)
    else none) = none
  rw [if_neg]
  rintro ⟨-, hall, -⟩
  exact hfrac hall

lemma filter_ne_dot_eq_filter_digits (a : List Char)
    (ha : ∀ c ∈ a, c.isDigit = true ∨ c = '.') :
    a.filter (fun c => c ≠ '.') = a.filter Char.isDigit := by
  refine List.filter_congr (fun c hc => ?_)
  rcases ha c hc with h | h
  · simp [h, digit_ne_dot h]
  · subst h
    decide

lemma stripPercent_shape (a b : List Char)
    (ha : ∀ c ∈ a, c.isDigit = true ∨ c = '.')
    (hb : ∀ c ∈ b, c.isDigit = true) :
    stripPercent (a ++ ',' :: b ++ ['%']) = a ++ ',' :: b := by
  have hA : a.filter (fun c => c ≠ '%') = a :=
    List.filter_eq_self.mpr (fun c hc => by
      rcases ha c hc with h | h
      · exact decide_eq_true (digit_ne_pct h)
      · subst h
        decide)
  have hB : b.filter (fun c => c ≠ '%') = b :=
    List.filter_eq_self.mpr
      (fun c hc => decide_eq_true (digit_ne_pct (hb c hc)))
  unfold stripPercent
  rw [List.filter_append, List.filter_append, hA,
    List.filter_cons_of_pos (by decide), hB]
  simp

lemma stripDots_shape (a b : List Char)
    (ha : ∀ c ∈ a, c.isDigit = true ∨ c = '.')
    (hb : ∀ c ∈ b, c.isDigit = true) :
    stripDots (a ++ ',' :: b) = a.filter Char.isDigit ++ ',' :: b := by
  have hB : b.filter (fun c => c ≠ '.') = b :=
    List.filter_eq_self.mpr
      (fun c hc => decide_eq_true (digit_ne_dot (hb c hc)))
  unfold stripDots
  rw [List.filter_append, filter_ne_dot_eq_filter_digits a ha,
    List.filter_cons_of_pos (by decide), hB]

lemma commaToDot_shape (a b : List Char)
    (ha : ∀ c ∈ a, c ≠ ',') (hb : ∀ c ∈ b, c.isDigit = true) :
    commaToDot (a ++ ',' :: b) = a ++ '.' :: b := by
  have hA : a.map (fun c => if c = ',' then '.' else c) = a := by
    rw [show a.map (fun c => if c = ',' then '.' else c) = a.map id from
      List.map_congr_left (fun c hc => by simp [ha c hc]), List.map_id]
  have hB : b.map (fun c => if c = ',' then '.' else c) = b := by
    rw [show b.map (fun c => if c = ',' then '.' else c) = b.map id from
      List.map_congr_left (fun c hc => by
        simp [digit_ne_comma (hb c hc)]), List.map_id]
  unfold commaToDot
  rw [List.map_append, hA, List.map_cons, hB]
  simp

lemma convert_dy_general (a b : List Char)
    (ha : ∀ c ∈ a, c.isDigit = true ∨ c = '.')
    (hb : ∀ c ∈ b, c.isDigit = true)
    (ha' : a.filter Char.isDigit ≠ []) :
    convert_dividend_yield ⟨a ++ ',' :: b ++ ['%']⟩ =
      some (((digitsToNat (a.filter Char.isDigit) : ℚ) +
        (digitsToNat b : ℚ) / 10 ^ b.length) / 100) := by
  have hc : ∀ c ∈ a.filter Char.isDigit, c ≠ ',' :=
    fun c hcf => digit_ne_comma (List.of_mem_filter hcf)
  have hd : ∀ c ∈ a.filter Char.isDigit, c.isDigit = true :=
    fun c hcf => List.of_mem_filter hcf
  unfold convert_dividend_yield
  rw [show (⟨a ++ ',' :: b ++ ['%']⟩ : String).data = a ++ ',' :: b ++ ['%']
      from rfl,
    stripPercent_shape a b ha hb, stripDots_shape a b ha hb,
    commaToDot_shape (a.filter Char.isDigit) b hc hb,
    pyFloat_int_frac (a.filter Char.isDigit) b hd hb ha']
  rfl

lemma convert_vac_nodot (a b : List Char)
    (ha : ∀ c ∈ a, c.isDigit = true) (hb : ∀ c ∈ b, c.isDigit = true)
    (ha' : a ≠ []) :
    convert_vacancia ⟨a ++ ',' :: b ++ ['%']⟩ =
      some (((digitsToNat a : ℚ) +
        (digitsToNat b : ℚ) / 10 ^ b.length) / 100) := by
  unfold convert_vacancia
  rw [show (⟨a ++ ',' :: b ++ ['%']⟩ : String).data = a ++ ',' :: b ++ ['%']
      from rfl,
    stripPercent_shape a b (fun c hc => Or.inl (ha c hc)) hb,
    commaToDot_shape a b (fun c hc => digit_ne_comma (ha c hc)) hb,
    pyFloat_int_frac a b ha hb ha']
  rfl

lemma convert_vac_dot (a b : List Char)
    (ha : ∀ c ∈ a, c.isDigit = true ∨ c = '.')
    (hb : ∀ c ∈ b, c.isDigit = true) (hdot : '.' ∈ a) :
    convert_vacancia ⟨a ++ ',' :: b ++ ['%']⟩ = none := by
  have hnc : ∀ c ∈ a, c ≠ ',' := fun c hc => by
    rcases ha c hc with h | h
    · exact digit_ne_comma h
    · subst h
      decide
  unfold convert_vacancia
  rw [show (⟨a ++ ',' :: b ++ ['%']⟩ : String).data = a ++ ',' :: b ++ ['%']
      from rfl,
    stripPercent_shape a b ha hb, commaToDot_shape a b hnc hb,
    pyFloat_extra_dot a b ha hdot]
  rfl

/-! ### Claim theorems: C2, C8 -/

/-- C2 counterexample: the Vacancia Media normalization does not strip the
thousands separator, so the locale percentage string with a thousands
separator fails to parse (the claim asserts it parses for every percentage
field). -/
theorem vacancia_thousands_separator_parse_fails :
    convert_vacancia ("1.234,56%") = none := rfl

/-- C2 (amended): for Dividend Yield, normalization strips the thousands
separator, converts the decimal comma, strips the percent sign and divides
by 100, accepting thousands separators; for Vacancia Media the same rule
applies except that the thousands separator is not stripped, so a
dot-free percentage string normalizes the same way, while a string
containing a thousands separator fails to parse. -/
theorem percentage_normalization (a b : List Char)
    (ha : ∀ c ∈ a, c.isDigit = true ∨ c = '.')
    (hb : ∀ c ∈ b, c.isDigit = true)
    (ha' : a.filter Char.isDigit ≠ []) :
    convert_dividend_yield ⟨a ++ ',' :: b ++ ['%']⟩ =
      some (((digitsToNat (a.filter Char.isDigit) : ℚ) +
        (digitsToNat b : ℚ) / 10 ^ b.length) / 100) ∧
    ((∀ c ∈ a, c.isDigit = true) → a ≠ [] →
      convert_vacancia ⟨a ++ ',' :: b ++ ['%']⟩ =
        some (((digitsToNat a : ℚ) +
          (digitsToNat b : ℚ) / 10 ^ b.length) / 100)) ∧
    ('.' ∈ a → convert_vacancia ⟨a ++ ',' :: b ++ ['%']⟩ = none) :=
  ⟨convert_dy_general a b ha hb ha',
   fun h h' => convert_vac_nodot a b h hb h',
   fun hdot => convert_vac_dot a b ha hb hdot⟩

/-- Witness for C2 (amended): the percentage string built from digits 12,34
normalizes to 0.1234 under both percentage conversions. -/
theorem percentage_normalization_witness :
    convert_dividend_yield ⟨['1', '2'] ++ ',' :: ['3', '4'] ++ ['%']⟩ =
      some 0.1234 ∧
    convert_vacancia ⟨['1', '2'] ++ ',' :: ['3', '4'] ++ ['%']⟩ =
      some 0.1234 := by
  obtain ⟨h1, h2, h3⟩ := percentage_normalization ['1', '2'] ['3', '4']
    (by decide) (by decide) (by decide)
  have e1 : digitsToNat (['1', '2'].filter Char.isDigit) = 12 := rfl
  have e2 : digitsToNat ['3', '4'] = 34 := rfl
  have e3 : digitsToNat ['1', '2'] = 12 := rfl
  have hv : (((12 : ℕ) : ℚ) + ((34 : ℕ) : ℚ) /
      10 ^ (['3', '4'] : List Char).length) / 100 = 0.1234 := by
    norm_num
  constructor
  · rw [h1, e1, e2, hv]
  · rw [h2 (by decide) (by decide), e3, e2, hv]

/-- C8: large-number normalization strips the dot thousands separators and
parses the remaining digits, for both Valor de Mercado and Liquidez. -/
theorem large_number_normalization (a : List Char)
    (ha : ∀ c ∈ a, c.isDigit = true ∨ c = '.')
    (ha' : a.filter Char.isDigit ≠ []) :
    convert_valor_mercado ⟨a⟩ =
      some (digitsToNat (a.filter Char.isDigit) : ℚ) ∧
    convert_liquidez ⟨a⟩ =
      some (digitsToNat (a.filter Char.isDigit) : ℚ) := by
  have hp := pyFloat_digits (a.filter Char.isDigit)
    (fun c hc => List.of_mem_filter hc) ha'
  constructor
  · unfold convert_valor_mercado
    rw [show (⟨a⟩ : String).data = a from rfl]
    show pyFloat (stripDots a) = _
    rw [show stripDots a = a.filter Char.isDigit from
      filter_ne_dot_eq_filter_digits a ha, hp]
  · unfold convert_liquidez
    rw [show (⟨a⟩ : String).data = a from rfl]
    show pyFloat (stripDots a) = _
    rw [show stripDots a = a.filter Char.isDigit from
      filter_ne_dot_eq_filter_digits a ha, hp]

/-- Witness for C8: the string with two thousands separators normalizes to
1234567. -/
theorem large_number_normalization_witness :
    convert_valor_mercado ("1.234.567") = some 1234567 ∧
    convert_liquidez ("1.234.567") = some 1234567 := by
  obtain ⟨h1, h2⟩ := large_number_normalization (("1.234.567").data)
    (by decide) (by decide)
  have e : digitsToNat ((("1.234.567").data).filter Char.isDigit) =
      1234567 := rfl
  constructor
  · rw [show ("1.234.567" : String) = ⟨("1.234.567").data⟩ from rfl, h1, e]
    norm_num
  · rw [show ("1.234.567" : String) = ⟨("1.234.567").data⟩ from rfl, h2, e]
    norm_num

/-! ### Claim theorems: C9, C10 -/

/-- C9: when the fetch, normalization, or filter stage fails (returns its
`None` failure signal), `main` writes no output file, runs no downstream
stage, and prints a diagnostic message. -/
theorem pipeline_short_circuits (file_exists : Bool)
    (fetched : Option (List RawRecord))
    (h : fetched = none ∨
      (∃ df, fetched = some df ∧ clean_and_convert_data df = none) ∨
      (∃ df df2, fetched = some df ∧ clean_and_convert_data df = some df2 ∧
        apply_filters df2 = none)) :
    (main_model file_exists fetched).written = none ∧
    (main_model file_exists fetched).diagnostic ≠ none := by
  have hv : (verificar_arquivo_existente file_exists
      ("fundos_imobiliarios_filtrados.xlsx")).1 = true := by
    unfold verificar_arquivo_existente
    cases file_exists <;> simp
  rcases h with h | ⟨df, hdf, hclean⟩ | ⟨df, df2, hdf, hclean, hfilt⟩
  · subst h
    unfold main_model
    rw [hv]
    simp
  · subst hdf
    unfold main_model
    rw [hv]
    simp [hclean]
  · simp [apply_filters] at hfilt

/-- Witness for C9: a failed fetch writes nothing and prints a diagnostic. -/
theorem pipeline_short_circuits_witness :
    (main_model false none).written = none ∧
    (main_model false none).diagnostic ≠ none :=
  pipeline_short_circuits false none (Or.inl rfl)

/-- C10: the pre-write existence check returns `True` for every filename,
even when the file exists (printing only a warning), so `main` behaves
identically whether or not the output file already exists — the file is
overwritten without asking for confirmation. -/
theorem overwrite_check_always_true (file_exists : Bool) (nome : String)
    (fetched : Option (List RawRecord)) :
    (verificar_arquivo_existente file_exists nome).1 = true ∧
    (file_exists = true →
      (verificar_arquivo_existente file_exists nome).2 =
        some ("AVISO: O arquivo " ++ nome ++ " ja existe no diretorio.")) ∧
    main_model file_exists fetched = main_model false fetched := by
  refine ⟨?_, ?_, ?_⟩
  · unfold verificar_arquivo_existente
    cases file_exists <;> simp
  · intro h
    subst h
    unfold verificar_arquivo_existente
    simp
  · unfold main_model verificar_arquivo_existente
    cases file_exists <;> simp

/-- Witness for C10: with an existing output file, the check still returns
`True`, only warns, and the pipeline proceeds as if the file were absent. -/
theorem overwrite_check_always_true_witness :
    (verificar_arquivo_existente true ("out.xlsx")).1 = true ∧
    (verificar_arquivo_existente true ("out.xlsx")).2 =
      some ("AVISO: O arquivo " ++ ("out.xlsx") ++ " ja existe no diretorio.") ∧
    main_model true none = main_model false none := by
  obtain ⟨h1, h2, h3⟩ := overwrite_check_always_true true ("out.xlsx") none
  exact ⟨h1, h2 rfl, h3⟩

end FiiAnalyzer
